import Mathlib

/-!
Shallow embedding of `src/main.py` (Uni-Schedule-Mail): a script that loads a
spreadsheet class schedule, filters it by weekday and by academic week parity,
applies per-date exception overrides, and emails the result.

Dates are embedded as proleptic-Gregorian ordinals (`Int`): the number of days
since 0000-12-31, so ordinal 1 is 0001-01-01, exactly as Python's
`date.toordinal`.  Python's `//` and `%` on integers are floor division and
nonnegative remainder for positive divisors, which coincide with Lean's `Int`
division and `Int` remainder for positive divisors, so those operators are
used directly.
-/

namespace UniSchedule

/-- Gregorian leap-year test, as used by Python `datetime.date`. -/
def isLeap (y : Nat) : Bool := (y % 4 == 0 && y % 100 != 0) || y % 400 == 0

/-- Days in the year strictly before month `m` (1-based), in year `y`. -/
def daysBeforeMonth (y m : Nat) : Nat :=
  [0, 31, 59, 90, 120, 151, 181, 212, 243, 273, 304, 334].getD (m - 1) 0 +
    (if 2 < m ∧ isLeap y then 1 else 0)

/-- Python `date(y, m, d).toordinal()`: days since 0001-01-01 = day 1. -/
def toordinal (y m d : Nat) : Nat :=
  (y - 1) * 365 + (y - 1) / 4 - (y - 1) / 100 + (y - 1) / 400 + daysBeforeMonth y m + d

/-- A calendar date `date(y, m, d)`, embedded as its ordinal. -/
def mkDate (y m d : Nat) : Int := (toordinal y m d : Int)

/-- Python `date.weekday()`: Monday = 0 … Sunday = 6 (0001-01-01 is a Monday
in the proleptic Gregorian calendar). -/
def pyWeekday (d : Int) : Int := (d - 1) % 7

/-- English weekday names, as produced by `strftime "%A"` in the C locale. -/
def WEEKDAY_NAMES : List String :=
  ["Monday", "Tuesday", "Wednesday", "Thursday", "Friday", "Saturday", "Sunday"]

/-- Python `today.strftime "%A"`, e.g. `"Monday"`. -/
def dayName (d : Int) : String := WEEKDAY_NAMES.getD (pyWeekday d).toNat ""

/-- Inverse of `toordinal` (civil-from-days): recover `(year, month, day)`
from an ordinal, used to model `strftime "%Y-%m-%d"`.  All intermediate
divisions act on nonnegative values. -/
def dateFromOrdinal (n : Int) : Int × Int × Int :=
  let z := n + 305
  let era := (if 0 ≤ z then z else z - 146096) / 146097
  let doe := z - era * 146097
  let yoe := (doe - doe / 1460 + doe / 36524 - doe / 146096) / 365
  let y := yoe + era * 400
  let doy := doe - (365 * yoe + yoe / 4 - yoe / 100)
  let mp := (5 * doy + 2) / 153
  let d := doy - (153 * mp + 2) / 5 + 1
  let m := mp + (if mp < 10 then 3 else -9)
  (y + (if m ≤ 2 then 1 else 0), m, d)

/-- Zero-pad a (nonnegative, at most two-digit) number to width 2. -/
def pad2 (n : Int) : String := if n < 10 then "0" ++ toString n else toString n

/-- Python `d.strftime "%Y-%m-%d"` for the date with ordinal `n`. -/
def fmtDate (n : Int) : String :=
  match dateFromOrdinal n with
  | (y, m, d) => toString y ++ "-" ++ pad2 m ++ "-" ++ pad2 d

/-! ### Static configuration constants (src/main.py lines 8-17) -/

def SEMESTER_START_DATE : Int := mkDate 2026 2 23

def HOLIDAY_WEEKS_MONDAYS : List Int := [mkDate 2026 4 13]

def SEND_EMPTY_EMAIL : Bool := false

/-! ### Week parity calculator (src/main.py lines 32-58)

The Python function reads the module-level constants `SEMESTER_START_DATE`
and `HOLIDAY_WEEKS_MONDAYS`; the embedding takes them as parameters and
`get_academic_week_parity` instantiates them with the configured values. -/

def get_academic_week_parity_with (semStart : Int) (holidays : List Int)
    (today_date : Int) : String :=
  let current_monday := today_date - pyWeekday today_date
  let start_monday := semStart - pyWeekday semStart
  if current_monday < start_monday then "all"
  else
    let days_elapsed := current_monday - start_monday
    let calendar_weeks_elapsed := days_elapsed / 7
    let holidays_passed : Int := holidays.countP (fun hw => decide (hw ≤ current_monday))
    let academic_week_index := calendar_weeks_elapsed - holidays_passed
    if current_monday ∈ holidays then "holiday"
    else if academic_week_index % 2 ≠ 0 then "even" else "odd"

def get_academic_week_parity (today_date : Int) : String :=
  get_academic_week_parity_with SEMESTER_START_DATE HOLIDAY_WEEKS_MONDAYS today_date

/-! ### Exception resolver (src/main.py lines 60-77)

`exceptions.json` holds JSON.  A decoded JSON object ("record") is embedded as
`ExcEntry`; a `"date"` field that is absent or not a string is `none`
(`entry.get "date"` then never equals the today string).  The `except` at
line 74 catches only `json.JSONDecodeError`, so the states of the file are:
absent; present but undecodable (caught, warning printed); and present and
decoded.  A decoded value is embedded as the sequence of items Python
iterates over, each either a record or not (`ExcItem.nonRecord`, e.g. the
strings produced by decoding `["x"]`, or the keys when the document is an
object); a decoded value that is not iterable at all raises at the `for`
itself, represented by a leading `nonRecord`.  When the loop reaches a
non-record item, `entry.get` raises an uncaught `AttributeError`
(`ExcResolution.raised`); items after an earlier match are never reached. -/

structure ExcEntry where
  date : Option String
  note : Option String
  cancel_hours : List String
  cancel_courses : List String
deriving DecidableEq

inductive ExcItem
  | record (e : ExcEntry)
  | nonRecord
deriving DecidableEq

inductive ExcSource
  | absent
  | undecodable
  | parsed (items : List ExcItem)
deriving DecidableEq

/-- Result of `get_todays_exceptions`: a matched rule, no rule (with the flag
recording whether the malformed-JSON warning was printed), or an uncaught
exception escaping the function. -/
inductive ExcResolution
  | found (e : ExcEntry)
  | noRule (warned : Bool)
  | raised
deriving DecidableEq

/-- The `for entry in data` loop with early `return entry`; reaching a
non-record item raises. -/
def findException (todayStr : String) : List ExcItem → ExcResolution
  | [] => ExcResolution.noRule false
  | ExcItem.nonRecord :: _ => ExcResolution.raised
  | ExcItem.record e :: rest =>
      if e.date = some todayStr then ExcResolution.found e
      else findException todayStr rest

def get_todays_exceptions (todayStr : String) : ExcSource → ExcResolution
  | .absent => ExcResolution.noRule false
  | .undecodable => ExcResolution.noRule true
  | .parsed l => findException todayStr l

/-! ### Regular-expression model for `Series.str.contains`

`main.py` line 198 joins the `cancel_courses` patterns with `"|"` and line 200
hands the joined string to pandas `str.contains(pattern, case=False, na=False)`,
whose default is `regex=True` with `re.IGNORECASE` — a regular-expression
search, not a literal substring test.  The model covers only the fragment in
which the joined pattern is built from non-metacharacter literals (compared
case-insensitively, modelling `re.IGNORECASE`), the any-character wildcard
`.`, and top-level alternation `|` (lowest precedence, so the alternatives of
a group-free pattern are its `|`-separated chunks).  The remaining
metacharacters of `RE_METACHARS` (quantifiers, anchors, classes, groups,
escapes) get regex meaning — or raise `re.error` — in pandas but would be read
as literals by `tokseq`, so the model is faithful only on patterns free of
them; every theorem below that runs `regexSearch` on abstract patterns
hypothesizes freedom from all of `RE_METACHARS` except the modelled `.` and
`|`, and the concrete counterexample uses only `.`. -/

/-- The characters to which Python's `re` module gives special meaning. -/
def RE_METACHARS : List Char :=
  ['.', '^', '$', '*', '+', '?', '\x7b', '\x7d', '[', ']', '\\', '|', '(', ')']

inductive RTok
  | lit (c : Char)
  | any
deriving DecidableEq

/-- Read a group-free alternative as a token sequence: `.` is the wildcard,
every other character a literal. -/
def tokseq (cs : List Char) : List RTok :=
  cs.map (fun c => if c = '.' then RTok.any else RTok.lit c)

/-- Split a pattern on top-level `|` into its alternatives. -/
def splitAlts : List Char → List Char → List (List Char)
  | [], acc => [acc.reverse]
  | c :: rest, acc =>
      if c = '|' then acc.reverse :: splitAlts rest []
      else splitAlts rest (c :: acc)

/-- Does the token sequence match a prefix of `s`?  Literals compare
case-insensitively (`re.IGNORECASE`). -/
def matchesAt : List RTok → List Char → Bool
  | [], _ => true
  | _ :: _, [] => false
  | t :: ts, c :: cs =>
      (match t with
       | RTok.any => true
       | RTok.lit l => l.toLower = c.toLower) && matchesAt ts cs

/-- Does the token sequence match starting at some position of `s`
(`re.search` semantics)? -/
def searchIn (ts : List RTok) : List Char → Bool
  | [] => matchesAt ts []
  | c :: rest => matchesAt ts (c :: rest) || searchIn ts rest

/-- `Series.str.contains(pattern, case=False, regex=True)` on one cell. -/
def regexSearch (pattern s : String) : Bool :=
  (splitAlts pattern.data []).any (fun alt => searchIn (tokseq alt) s.data)

/-- Python `'|'.join(l)`. -/
def joinPipe : List String → String
  | [] => ""
  | [p] => p
  | p :: rest => p ++ "|" ++ joinPipe rest

/-! ### DataFrame model and the main pipeline (src/main.py lines 137-210)

A row is an association list from column name to cell; a missing key models a
NaN cell.  The frame records its column list separately: accessing
`df[c]` for `c` not in the columns raises an uncaught `KeyError`, modelled by
the `keyError` outcome.  `load_data` (lines 19-30) raises on a missing or
unreadable file and `main` catches, prints and returns — modelled by passing
`none` for the frame, giving the `loadError` outcome.  An uncaught exception
escaping `get_todays_exceptions` aborts the run, the `excError` outcome.  The
`sent` outcome carries the rows handed to `format_email_body`/`send_email`. -/

/-- Python `str.lower()` (restricted to ASCII, which covers every string the
script compares).  Defined over the character list so that it reduces inside
the kernel. -/
def strLower (s : String) : String := ⟨s.data.map Char.toLower⟩

abbrev Row := List (String × Option String)

/-- Cell access; `none` both for a NaN cell and for an absent key. -/
def getCell (r : Row) (c : String) : Option String :=
  match r.find? (fun p => p.1 == c) with
  | some p => p.2
  | none => none

structure DataFrame where
  cols : List String
  rows : List Row
deriving DecidableEq

inductive Outcome
  | loadError
  | missingDay
  | noClasses
  | missingWeekType
  | holidayOut
  | allFiltered
  | sent (rows : List Row)
  | keyError (col : String)
  | excError
deriving DecidableEq

/-- Line 157: `df['Day'].str.lower() == today_day_name.lower()`; a NaN `Day`
cell compares unequal. -/
def dayMatches (todayName : String) (r : Row) : Bool :=
  match getCell r "Day" with
  | some s => strLower s == strLower todayName
  | none => false

/-- Lines 180-183: keep a row when `WeekType`, with NaN filled as `"all"`,
lowercases to `"all"` or to the current parity. -/
def weekTypeKeep (parity : String) (r : Row) : Bool :=
  let w := strLower ((getCell r "WeekType").getD "all")
  w == "all" || w == parity

/-- Line 193: `~daily_classes['Time'].isin(cancel_hours)`; a NaN `Time` cell
is not in any list, hence kept. -/
def hoursKeep (cancel_hours : List String) (r : Row) : Bool :=
  match getCell r "Time" with
  | some t => !cancel_hours.contains t
  | none => true

/-- Line 200: a row is dropped when its `Course` cell matches the joined
pattern (`na=False`: a NaN cell never matches). -/
def courseCancelled (pattern : String) (r : Row) : Bool :=
  match getCell r "Course" with
  | some c => regexSearch pattern c
  | none => false

/-- Lines 202-210: the final emptiness check; `format_email_body` (lines
94-101) reads `row['Time']`, `row['Course']`, `row['Room']`, `row['Type']` in
that order for each row, raising `KeyError` at the first absent column when
any row exists. -/
def finalize (cols : List String) (daily : List Row) : Outcome :=
  if daily.isEmpty then Outcome.allFiltered
  else
    match ["Time", "Course", "Room", "Type"].find? (fun c => !cols.contains c) with
    | some c => Outcome.keyError c
    | none => Outcome.sent daily

/-- Lines 187-200: apply the exception rule.  Each branch first models the
column access (`KeyError` when the column is absent and the branch runs). -/
def afterException (cols : List String) (daily : List Row) (rule : ExcEntry) :
    Outcome :=
  if rule.cancel_hours ≠ [] ∧ ¬ cols.contains "Time" then Outcome.keyError "Time"
  else
    let d1 := if rule.cancel_hours.isEmpty then daily
              else daily.filter (hoursKeep rule.cancel_hours)
    let pattern := joinPipe rule.cancel_courses
    if pattern ≠ "" ∧ ¬ cols.contains "Course" then Outcome.keyError "Course"
    else
      let d2 := if pattern = "" then d1
                else d1.filter (fun r => !courseCancelled pattern r)
      finalize cols d2

/-- `main` (lines 137-210), parameterized over today's date, the result of
`load_data` (`none` = the load raised and was caught), the exceptions source
and the two date constants. -/
def mainModel (today : Int) (df? : Option DataFrame) (exc : ExcSource)
    (semStart : Int) (holidays : List Int) : Outcome :=
  let today_day_name := dayName today
  let today_str := fmtDate today
  match df? with
  | none => Outcome.loadError
  | some df =>
    if ¬ df.cols.contains "Day" then Outcome.missingDay
    else
      let daily := df.rows.filter (dayMatches today_day_name)
      if daily.isEmpty then Outcome.noClasses
      else if ¬ df.cols.contains "WeekType" then Outcome.missingWeekType
      else
        let parity := get_academic_week_parity_with semStart holidays today
        if parity == "holiday" then Outcome.holidayOut
        else
          let daily2 := daily.filter (weekTypeKeep parity)
          match get_todays_exceptions today_str exc with
          | ExcResolution.raised => Outcome.excError
          | ExcResolution.found rule => afterException df.cols daily2 rule
          | ExcResolution.noRule _ => finalize df.cols daily2

/-- `main` with the configured constants. -/
def mainRun (today : Int) (df? : Option DataFrame) (exc : ExcSource) : Outcome :=
  mainModel today df? exc SEMESTER_START_DATE HOLIDAY_WEEKS_MONDAYS

/-- Follows the spec's words for claim C7 (the literal-substring reading of
course cancellation): a row survives the exception rule iff its Time cell, when
present, is not one of the cancelled hours (the first conjunct coincides with
`hoursKeep`), and no cancel pattern occurs as a case-insensitive substring of
its Course cell (an absent Course cell never matches, mirroring `na=False`). -/
def specSurvives (rule : ExcEntry) (r : Row) : Bool :=
  hoursKeep rule.cancel_hours r &&
    !(decide (∃ p ∈ rule.cancel_courses,
        p.data.map Char.toLower <:+: (((getCell r "Course").getD "").data.map Char.toLower)))

/-! ### Notifier credentials check (src/main.py lines 113-120)

`send_email` reads `EMAIL_USER` and `EMAIL_PASS` from the environment; when
either is unset (`None`) or empty (falsy in Python), it prints an error and
returns before building the message.  Otherwise it constructs the message and
hands it to the SMTP transport (external I/O, outside the model). -/

inductive SendOutcome
  | credsMissing
  | attempted (fromAddr toAddr subject : String)
deriving DecidableEq

/-- Python truthiness of `os.environ.get` results: `None` and `""` are falsy. -/
def falsyEnv : Option String → Bool
  | none => true
  | some s => s == ""

def send_email (email_user email_pass : Option String) (subject : String) :
    SendOutcome :=
  if falsyEnv email_user || falsyEnv email_pass then SendOutcome.credsMissing
  else SendOutcome.attempted (email_user.getD "") (email_user.getD "") subject

/-! ## Helper lemmas -/

theorem findException_records (t : String) (l : List ExcEntry) :
    findException t (l.map ExcItem.record) =
      (match l.find? (fun e => e.date == some t) with
       | some e => ExcResolution.found e
       | none => ExcResolution.noRule false) := by
  induction l with
  | nil => rfl
  | cons e rest ih =>
      simp only [List.map_cons, findException, List.find?]
      by_cases h : e.date = some t
      · simp [h]
      · have hb : (e.date == some t) = false := by simp [h]
        simp [h, hb, ih]

theorem matchesAt_lits (p : List Char) (hdot : '.' ∉ p) (s : List Char) :
    matchesAt (tokseq p) s = true ↔
      p.map Char.toLower <+: s.map Char.toLower := by
  induction p generalizing s with
  | nil =>
      simp only [tokseq, List.map_nil, matchesAt]
      simp
  | cons c p ih =>
      have hc : c ≠ '.' := fun h => hdot (h ▸ List.mem_cons_self ..)
      have hdot' : '.' ∉ p := fun h => hdot (List.mem_cons_of_mem _ h)
      cases s with
      | nil =>
          simp only [tokseq, List.map_cons, List.map_nil, matchesAt]
          simp
      | cons a s =>
          have ht : tokseq (c :: p) = RTok.lit c :: tokseq p := by
            simp [tokseq, if_neg hc]
          rw [ht]
          simp only [List.map_cons, matchesAt]
          rw [Bool.and_eq_true, decide_eq_true_iff, ih hdot']
          exact ( List.cons_prefix_cons).symm

theorem searchIn_lits (p : List Char) (hdot : '.' ∉ p) (s : List Char) :
    searchIn (tokseq p) s = true ↔
      p.map Char.toLower <:+: s.map Char.toLower := by
  induction s with
  | nil =>
      simp only [searchIn, List.map_nil]
      rw [matchesAt_lits p hdot []]
      simp
  | cons a s ih =>
      simp only [searchIn, Bool.or_eq_true, List.map_cons]
      rw [matchesAt_lits p hdot (a :: s), ih]
      simp only [List.map_cons]
      exact ( List.infix_cons_iff).symm

theorem splitAlts_no_pipe (xs : List Char) (acc : List Char) (h : '|' ∉ xs) :
    splitAlts xs acc = [acc.reverse ++ xs] := by
  induction xs generalizing acc with
  | nil => simp [splitAlts]
  | cons c rest ih =>
      have hc : c ≠ '|' := fun hh => h (hh ▸ List.mem_cons_self ..)
      have h' : '|' ∉ rest := fun hh => h (List.mem_cons_of_mem _ hh)
      simp only [splitAlts, if_neg hc]
      rw [ih _ h']
      simp

theorem splitAlts_pipe_split (xs ys acc : List Char) (h : '|' ∉ xs) :
    splitAlts (xs ++ '|' :: ys) acc = (acc.reverse ++ xs) :: splitAlts ys [] := by
  induction xs generalizing acc with
  | nil => simp [splitAlts]
  | cons c rest ih =>
      have hc : c ≠ '|' := fun hh => h (hh ▸ List.mem_cons_self ..)
      have h' : '|' ∉ rest := fun hh => h (List.mem_cons_of_mem _ hh)
      simp only [List.cons_append, splitAlts, if_neg hc, List.append_eq]
      rw [ih _ h']
      simp

theorem joinPipe_data_cons (p q : String) (rest : List String) :
    (joinPipe (p :: q :: rest)).data = p.data ++ '|' :: (joinPipe (q :: rest)).data := by
  show (p ++ "|" ++ joinPipe (q :: rest)).data = _
  simp [String.data_append]

theorem joinPipe_ne_empty (p : String) (rest : List String) (hp : p ≠ "") :
    joinPipe (p :: rest) ≠ "" := by
  cases rest with
  | nil => simpa [joinPipe] using hp
  | cons q r =>
      intro h
      have hd := congrArg String.data h
      rw [joinPipe_data_cons] at hd
      simp at hd

theorem splitAlts_joinPipe (pats : List String) (hne : pats ≠ [])
    (hpipe : ∀ p ∈ pats, '|' ∉ p.data) :
    splitAlts (joinPipe pats).data [] = pats.map String.data := by
  induction pats with
  | nil => exact absurd rfl hne
  | cons p rest ih =>
      cases rest with
      | nil =>
          show splitAlts p.data [] = [p.data]
          rw [splitAlts_no_pipe _ _ (hpipe p (List.mem_cons_self ..))]
          simp
      | cons q rest' =>
          rw [joinPipe_data_cons,
            splitAlts_pipe_split _ _ _ (hpipe p (List.mem_cons_self ..)),
            ih (by simp) (fun x hx => hpipe x (List.mem_cons_of_mem _ hx))]
          simp

theorem regexSearch_joinPipe (pats : List String) (s : String) (hne : pats ≠ [])
    (hpipe : ∀ p ∈ pats, '|' ∉ p.data) (hdot : ∀ p ∈ pats, '.' ∉ p.data) :
    regexSearch (joinPipe pats) s = true ↔
      ∃ p ∈ pats, p.data.map Char.toLower <:+: s.data.map Char.toLower := by
  simp only [regexSearch]
  rw [splitAlts_joinPipe pats hne hpipe, List.any_eq_true]
  constructor
  · rintro ⟨alt, halt, hsearch⟩
    rw [List.mem_map] at halt
    obtain ⟨p, hp, rfl⟩ := halt
    exact ⟨p, hp, (searchIn_lits _ (hdot p hp) _).mp hsearch⟩
  · rintro ⟨p, hp, hinf⟩
    exact ⟨p.data, List.mem_map_of_mem _ hp, (searchIn_lits _ (hdot p hp) _).mpr hinf⟩

theorem hoursKeep_nil (r : Row) : hoursKeep [] r = true := by
  unfold hoursKeep
  cases getCell r "Time" <;> rfl

theorem courseCancelled_joined (pats : List String) (r : Row) (hne : pats ≠ [])
    (hpats : ∀ p ∈ pats, p ≠ "" ∧ '.' ∉ p.data ∧ '|' ∉ p.data) :
    courseCancelled (joinPipe pats) r =
      decide (∃ p ∈ pats,
        p.data.map Char.toLower <:+:
          (((getCell r "Course").getD "").data.map Char.toLower)) := by
  unfold courseCancelled
  cases hg : getCell r "Course" with
  | some c =>
      rw [Bool.eq_iff_iff, decide_eq_true_iff]
      simp only [Option.getD]
      exact regexSearch_joinPipe pats c hne
        (fun p hp => (hpats p hp).2.2) (fun p hp => (hpats p hp).2.1)
  | none =>
      rw [eq_comm, decide_eq_false_iff_not]
      rintro ⟨p, hp, hinf⟩
      simp only [Option.getD, show ("" : String).data = [] from rfl,
        List.map_nil, List.infix_nil, List.map_eq_nil_iff] at hinf
      exact (hpats p hp).1 (String.ext hinf)

/-! ## Claims -/

/-- C3: for every date whose week-Monday precedes the semester start's
week-Monday, the parity calculator returns "all", regardless of the
holiday-week set. -/
theorem parity_pre_semester_all (semStart : Int) (holidays : List Int) (today : Int)
    (h : today - pyWeekday today < semStart - pyWeekday semStart) :
    get_academic_week_parity_with semStart holidays today = "all" := by
  simp only [get_academic_week_parity_with]
  rw [if_pos h]

/-- C3 witness: 2026-02-16 lies in the week before the configured semester
start 2026-02-23. -/
theorem parity_pre_semester_all_witness :
    get_academic_week_parity (mkDate 2026 2 16) = "all" :=
  parity_pre_semester_all SEMESTER_START_DATE HOLIDAY_WEEKS_MONDAYS
    (mkDate 2026 2 16) (by decide)

/-- C4: for every date whose week-Monday is on or after the semester start's
week-Monday and belongs to the holiday-week Monday set, the parity calculator
returns "holiday" — for every date of that week, since only the week-Monday of
the input enters the test. -/
theorem parity_holiday_week (semStart : Int) (holidays : List Int) (today : Int)
    (h1 : ¬ (today - pyWeekday today < semStart - pyWeekday semStart))
    (h2 : (today - pyWeekday today) ∈ holidays) :
    get_academic_week_parity_with semStart holidays today = "holiday" := by
  simp only [get_academic_week_parity_with]
  rw [if_neg h1, if_pos h2]

/-- C4 witness: 2026-04-15 is the Wednesday of the configured holiday week
whose Monday is 2026-04-13. -/
theorem parity_holiday_week_witness :
    get_academic_week_parity (mkDate 2026 4 15) = "holiday" :=
  parity_holiday_week SEMESTER_START_DATE HOLIDAY_WEEKS_MONDAYS
    (mkDate 2026 4 15) (by decide) (by decide)

/-- C2: for every date on or after the semester start's week-Monday whose week
is not a holiday week, the calculator returns "even" when the academic week
index (calendar weeks elapsed minus holiday weeks passed) is odd and "odd"
when it is even; with the configured constants, 2026-02-23 gives "odd",
2026-03-02 gives "even", 2026-04-13 gives "holiday" and 2026-04-20 gives
"even". -/
theorem parity_index_rule :
    (∀ (semStart : Int) (holidays : List Int) (today : Int),
      semStart - pyWeekday semStart ≤ today →
      (today - pyWeekday today) ∉ holidays →
      get_academic_week_parity_with semStart holidays today =
        (if Odd (((today - pyWeekday today) - (semStart - pyWeekday semStart)) / 7
                  - (holidays.countP (fun hw => decide (hw ≤ today - pyWeekday today)) : Int))
         then "even" else "odd")) ∧
    get_academic_week_parity (mkDate 2026 2 23) = "odd" ∧
    get_academic_week_parity (mkDate 2026 3 2) = "even" ∧
    get_academic_week_parity (mkDate 2026 4 13) = "holiday" ∧
    get_academic_week_parity (mkDate 2026 4 20) = "even" := by
  refine ⟨?_, by decide, by decide, by decide, by decide⟩
  intro semStart holidays today h1 h2
  have hmon : ¬ (today - pyWeekday today < semStart - pyWeekday semStart) := by
    simp only [pyWeekday] at h1 ⊢
    omega
  simp only [get_academic_week_parity_with]
  rw [if_neg hmon, if_neg h2]
  have hodd : (((today - pyWeekday today) - (semStart - pyWeekday semStart)) / 7
      - (holidays.countP (fun hw => decide (hw ≤ today - pyWeekday today)) : Int)) % 2 ≠ 0 ↔
      Odd (((today - pyWeekday today) - (semStart - pyWeekday semStart)) / 7
      - (holidays.countP (fun hw => decide (hw ≤ today - pyWeekday today)) : Int)) := by
    rw [Int.odd_iff]
    omega
  by_cases h : Odd (((today - pyWeekday today) - (semStart - pyWeekday semStart)) / 7
      - (holidays.countP (fun hw => decide (hw ≤ today - pyWeekday today)) : Int))
  · rw [if_pos (hodd.mpr h), if_pos h]
  · rw [if_neg (fun hc => h (hodd.mp hc)), if_neg h]

/-- C2 witness: the general rule instantiated at 2026-04-20 with the
configured constants (academic week index 7, odd, hence "even"). -/
theorem parity_index_rule_witness :
    get_academic_week_parity (mkDate 2026 4 20) = "even" := by
  have h := parity_index_rule.1 SEMESTER_START_DATE HOLIDAY_WEEKS_MONDAYS
    (mkDate 2026 4 20) (by decide) (by decide)
  rw [get_academic_week_parity, h]
  decide

/-- C10: the parity calculator's result depends only on the Monday of the week
containing the input date. -/
theorem parity_depends_only_on_week_monday (semStart : Int) (holidays : List Int)
    (d1 d2 : Int) (h : d1 - pyWeekday d1 = d2 - pyWeekday d2) :
    get_academic_week_parity_with semStart holidays d1 =
      get_academic_week_parity_with semStart holidays d2 := by
  simp only [get_academic_week_parity_with]
  rw [h]

/-- C10 witness: Tuesday 2026-03-03 and Friday 2026-03-06 share the week-Monday
2026-03-02 and get the same parity. -/
theorem parity_depends_only_on_week_monday_witness :
    get_academic_week_parity (mkDate 2026 3 3) =
      get_academic_week_parity (mkDate 2026 3 6) :=
  parity_depends_only_on_week_monday SEMESTER_START_DATE HOLIDAY_WEEKS_MONDAYS
    (mkDate 2026 3 3) (mkDate 2026 3 6) (by decide)

/-- C6 counterexample: an override source that decodes but is not a list of
records (for instance the JSON document ["x"], a list whose sole item is a
string) does not yield a warning and no rule with the run continuing — the
resolver raises an uncaught AttributeError at `entry.get`, and a full run
with such a source aborts, shown at the resolver and on a complete run. -/
theorem exceptions_malformed_counterexample :
    get_todays_exceptions "2026-03-02" (ExcSource.parsed [ExcItem.nonRecord]) =
      ExcResolution.raised ∧
    mainRun (mkDate 2026 3 2)
      (some ⟨["Day", "WeekType", "Time", "Course", "Room", "Type"],
             [[("Day", some "Monday"), ("WeekType", some "all"),
               ("Time", some "10:00"), ("Course", some "Algebra"),
               ("Room", some "R1"), ("Type", some "Lecture")]]⟩)
      (ExcSource.parsed [ExcItem.nonRecord]) = Outcome.excError := by
  exact ⟨rfl, by decide⟩

/-- C6 amended: the resolver returns the first decoded record whose date field
equals today's date string (later duplicates and later items are shadowed), or
no rule when every record mismatches; an absent source yields no rule without
a warning (not an error), and an undecodable source (json.JSONDecodeError)
yields no rule with a warning, the run continuing — but only that form of
malformation is recovered: a decoded item that is not a record raises an
uncaught error when the loop reaches it, unless an earlier record already
matched. -/
theorem exceptions_resolver_contract :
    (∀ t, get_todays_exceptions t ExcSource.absent = ExcResolution.noRule false) ∧
    (∀ t, get_todays_exceptions t ExcSource.undecodable = ExcResolution.noRule true) ∧
    (∀ (t : String) (entries : List ExcEntry),
      get_todays_exceptions t (ExcSource.parsed (entries.map ExcItem.record)) =
        (match entries.find? (fun e => e.date == some t) with
         | some e => ExcResolution.found e
         | none => ExcResolution.noRule false)) ∧
    (∀ (t : String) (e : ExcEntry) (rest : List ExcItem), e.date = some t →
      get_todays_exceptions t (ExcSource.parsed (ExcItem.record e :: rest)) =
        ExcResolution.found e) ∧
    (∀ (t : String) (rest : List ExcItem),
      get_todays_exceptions t (ExcSource.parsed (ExcItem.nonRecord :: rest)) =
        ExcResolution.raised) := by
  refine ⟨fun _ => rfl, fun _ => rfl,
    fun t entries => findException_records t entries,
    fun t e rest h => ?_, fun _ _ => rfl⟩
  simp [get_todays_exceptions, findException, h]

/-- C6 witness: a record dated today followed by a non-record item still
resolves to the record — the loop returns before reaching the bad item. -/
theorem exceptions_resolver_contract_witness :
    get_todays_exceptions "2026-03-02"
      (ExcSource.parsed [ExcItem.record ⟨some "2026-03-02", some "note", [], []⟩,
                         ExcItem.nonRecord]) =
      ExcResolution.found ⟨some "2026-03-02", some "note", [], []⟩ :=
  exceptions_resolver_contract.2.2.2.1 "2026-03-02"
    ⟨some "2026-03-02", some "note", [], []⟩ [ExcItem.nonRecord] rfl

/-- C8: when either credential environment variable is unset or empty, the
send operation reports missing credentials and returns without attempting
delivery. -/
theorem send_email_missing_creds (user pass : Option String) (subject : String)
    (h : falsyEnv user = true ∨ falsyEnv pass = true) :
    send_email user pass subject = SendOutcome.credsMissing := by
  simp only [send_email]
  rcases h with h | h <;> simp [h]

/-- C8 witness: an empty EMAIL_USER together with a set EMAIL_PASS
short-circuits the send. -/
theorem send_email_missing_creds_witness :
    send_email (some "") (some "secret") "subject" = SendOutcome.credsMissing :=
  send_email_missing_creds (some "") (some "secret") "subject" (Or.inl (by decide))

/-- C9: when no row's Day matches today's weekday name, the pipeline ends with
the "no classes" outcome, whatever the semester start, holiday set or
exceptions source — so before and independently of the parity computation and
the exception lookup. -/
theorem pipeline_no_classes_early (today : Int) (df : DataFrame) (exc : ExcSource)
    (semStart : Int) (holidays : List Int)
    (hday : df.cols.contains "Day" = true)
    (hempty : df.rows.filter (dayMatches (dayName today)) = []) :
    mainModel today (some df) exc semStart holidays = Outcome.noClasses := by
  simp only [mainModel, hday, hempty]
  simp

/-- C9 witness: a one-row table whose Day is Tuesday, run on Monday 2026-03-02
with the configured constants. -/
theorem pipeline_no_classes_early_witness :
    mainRun (mkDate 2026 3 2)
      (some ⟨["Day", "WeekType", "Time", "Course", "Room", "Type"],
             [[("Day", some "Tuesday"), ("WeekType", some "all"),
               ("Time", some "10:00"), ("Course", some "Algebra"),
               ("Room", some "R1"), ("Type", some "Lecture")]]⟩)
      ExcSource.absent = Outcome.noClasses :=
  pipeline_no_classes_early (mkDate 2026 3 2) _ ExcSource.absent
    SEMESTER_START_DATE HOLIDAY_WEEKS_MONDAYS (by decide) (by decide)

/-- C1 counterexample: a row whose WeekType is the unrecognized value
"biweekly", on a matching non-holiday Monday (2026-03-02, parity "even"), is
dropped by the parity-filter step — the run ends with every class filtered out
instead of including the row as the claim states. -/
theorem weektype_unrecognized_counterexample :
    weekTypeKeep "even" [("Day", some "Monday"), ("WeekType", some "biweekly")]
      = false ∧
    mainRun (mkDate 2026 3 2)
      (some ⟨["Day", "WeekType", "Time", "Course", "Room", "Type"],
             [[("Day", some "Monday"), ("WeekType", some "biweekly"),
               ("Time", some "10:00"), ("Course", some "Algebra"),
               ("Room", some "R1"), ("Type", some "Lecture")]]⟩)
      ExcSource.absent = Outcome.allFiltered := by
  exact ⟨by decide, by decide⟩

/-- C1 amended: a missing WeekType defaults to "all" and is always included;
a present WeekType is included exactly when it lowercases to "all" or to the
current parity, so unrecognized values are excluded, not included. -/
theorem weektype_missing_defaults_all (parity : String) (r : Row) :
    (getCell r "WeekType" = none → weekTypeKeep parity r = true) ∧
    (∀ w, getCell r "WeekType" = some w →
      (weekTypeKeep parity r = true ↔ (strLower w = "all" ∨ strLower w = parity))) := by
  constructor
  · intro h
    unfold weekTypeKeep
    rw [h]
    rfl
  · intro w h
    simp [weekTypeKeep, h]

/-- C1 witness: a row with WeekType "Odd" is kept when the computed parity is
"odd". -/
theorem weektype_missing_defaults_all_witness :
    weekTypeKeep "odd" [("WeekType", some "Odd")] = true :=
  ((weektype_missing_defaults_all "odd" [("WeekType", some "Odd")]).2
    "Odd" rfl).mpr (Or.inr (by decide))

/-- C5 counterexample: a schedule source missing the required column "Time"
(with a class scheduled for the Monday 2026-03-02 run) does not fail with a
printed diagnostic and a normal return — it reaches rendering and raises an
uncaught KeyError, modelled by the `keyError` outcome. -/
theorem pipeline_missing_column_counterexample :
    mainRun (mkDate 2026 3 2)
      (some ⟨["Day", "WeekType", "Course", "Room", "Type"],
             [[("Day", some "Monday"), ("WeekType", some "all"),
               ("Course", some "Algebra"), ("Room", some "R1"),
               ("Type", some "Lecture")]]⟩)
      ExcSource.absent = Outcome.keyError "Time" := by
  decide

/-- C5 amended: the graceful fatal failures are exactly: an absent or
unreadable source; a source without a "Day" column; and a source without a
"WeekType" column when the weekday filter leaves at least one row.  Each
prints a diagnostic and returns normally with no email.  The columns "Time",
"Course", "Room" and "Type" are never validated. -/
theorem pipeline_checked_failures :
    (∀ (today : Int) (exc : ExcSource) (semStart : Int) (holidays : List Int),
      mainModel today none exc semStart holidays = Outcome.loadError) ∧
    (∀ (today : Int) (df : DataFrame) (exc : ExcSource) (semStart : Int)
        (holidays : List Int),
      df.cols.contains "Day" = false →
      mainModel today (some df) exc semStart holidays = Outcome.missingDay) ∧
    (∀ (today : Int) (df : DataFrame) (exc : ExcSource) (semStart : Int)
        (holidays : List Int),
      df.cols.contains "Day" = true →
      df.rows.filter (dayMatches (dayName today)) ≠ [] →
      df.cols.contains "WeekType" = false →
      mainModel today (some df) exc semStart holidays = Outcome.missingWeekType) := by
  refine ⟨fun _ _ _ _ => rfl, ?_, ?_⟩
  · intro today df exc semStart holidays h
    simp only [mainModel]
    rw [if_pos (by simpa using h)]
  · intro today df exc semStart holidays hday hne hwt
    simp only [mainModel]
    rw [if_neg (by simpa using hday), if_neg (by simp [List.isEmpty_iff, hne]),
      if_pos (by simpa using hwt)]

/-- C5 witness: a source lacking the "WeekType" column, with a row matching
Monday 2026-03-02, aborts with the missing-WeekType diagnostic. -/
theorem pipeline_checked_failures_witness :
    mainRun (mkDate 2026 3 2)
      (some ⟨["Day", "Time", "Course", "Room", "Type"],
             [[("Day", some "Monday"), ("Time", some "10:00"),
               ("Course", some "Algebra"), ("Room", some "R1"),
               ("Type", some "Lecture")]]⟩)
      ExcSource.absent = Outcome.missingWeekType :=
  pipeline_checked_failures.2.2 (mkDate 2026 3 2) _ ExcSource.absent
    SEMESTER_START_DATE HOLIDAY_WEEKS_MONDAYS (by decide) (by decide) (by decide)

/-- C7 counterexample: with cancel_courses pattern "a.c" and a class whose
Course is "abc", the run drops the class ("a.c" is a regular expression whose
dot matches "b"), although "a.c" is not a case-insensitive substring of "abc"
— so the claim's "removes exactly the substring matches, leaves every other
entry intact" fails: the entry should have been sent. -/
theorem exception_course_regex_counterexample :
    mainRun (mkDate 2026 3 2)
      (some ⟨["Day", "WeekType", "Time", "Course", "Room", "Type"],
             [[("Day", some "Monday"), ("WeekType", some "all"),
               ("Time", some "10:00"), ("Course", some "abc"),
               ("Room", some "R1"), ("Type", some "Lecture")]]⟩)
      (ExcSource.parsed [ExcItem.record ⟨some "2026-03-02", none, [], ["a.c"]⟩])
      = Outcome.allFiltered ∧
    ¬ ("a.c".data.map Char.toLower <:+: "abc".data.map Char.toLower) := by
  exact ⟨by decide, by decide⟩

/-- C7 amended: when an exception rule applies, entries whose Time is in
cancel_hours are removed; course cancellation joins the patterns with "|" into
one case-insensitive regular expression, which coincides with the claim's
case-insensitive substring semantics whenever every pattern is nonempty and
contains none of the regex metacharacters `. ^ $ * + ? { } [ ] \ | ( )` —
then the pipeline removes exactly the entries whose Time is cancelled or whose
Course contains some pattern, and leaves every other entry intact. -/
theorem exception_filter_semantics (cols : List String) (daily : List Row)
    (rdate rnote : Option String) (rhours rpats : List String)
    (hTime : cols.contains "Time" = true)
    (hCourse : cols.contains "Course" = true)
    (hpats : ∀ p ∈ rpats, p ≠ "" ∧ ∀ c ∈ p.data, c ∉ RE_METACHARS) :
    afterException cols daily ⟨rdate, rnote, rhours, rpats⟩ =
      finalize cols (daily.filter (specSurvives ⟨rdate, rnote, rhours, rpats⟩)) := by
  have hpats' : ∀ p ∈ rpats, p ≠ "" ∧ '.' ∉ p.data ∧ '|' ∉ p.data := by
    intro p hp
    refine ⟨(hpats p hp).1, fun hc => ?_, fun hc => ?_⟩
    · exact ((hpats p hp).2 '.' hc) (by decide)
    · exact ((hpats p hp).2 '|' hc) (by decide)
  have hT : "Time" ∈ cols := by simpa using hTime
  have hC : "Course" ∈ cols := by simpa using hCourse
  simp only [afterException]
  rw [if_neg (by simp [hT]), if_neg (by simp [hC])]
  have hd1 : (if List.isEmpty rhours then daily else daily.filter (hoursKeep rhours)) =
      daily.filter (hoursKeep rhours) := by
    by_cases h : List.isEmpty rhours
    · have hnil : rhours = [] := by simpa [List.isEmpty_iff] using h
      rw [if_pos h, hnil]
      exact (List.filter_eq_self.mpr (fun r _ => hoursKeep_nil r)).symm
    · rw [if_neg h]
  rw [hd1]
  congr 1
  cases hps : rpats with
  | nil =>
      rw [if_pos (show joinPipe [] = "" from rfl)]
      refine List.filter_congr fun r _ => ?_
      simp [specSurvives]
  | cons p rest =>
      rw [if_neg (joinPipe_ne_empty p rest (hpats' p (by simp [hps])).1)]
      rw [List.filter_filter]
      refine List.filter_congr fun r _ => ?_
      rw [courseCancelled_joined (p :: rest) r (by simp)
        (fun q hq => hpats' q (hps ▸ hq))]
      simp [specSurvives, Bool.and_comm]

/-- C7 witness: a rule cancelling hour "12:00" and pattern "Math" applied to a
two-row day removes exactly the 12:00 Physics row and the Mathematics 101 row
per the substring semantics. -/
theorem exception_filter_semantics_witness :
    afterException ["Day", "WeekType", "Time", "Course", "Room", "Type"]
      [[("Day", some "Monday"), ("WeekType", some "all"), ("Time", some "10:00"),
        ("Course", some "Mathematics 101"), ("Room", some "R1"), ("Type", some "Lecture")],
       [("Day", some "Monday"), ("WeekType", some "all"), ("Time", some "12:00"),
        ("Course", some "Physics"), ("Room", some "R2"), ("Type", some "Lab")]]
      ⟨some "2026-03-02", none, ["12:00"], ["Math"]⟩ =
    finalize ["Day", "WeekType", "Time", "Course", "Room", "Type"]
      (List.filter (specSurvives ⟨some "2026-03-02", none, ["12:00"], ["Math"]⟩)
        [[("Day", some "Monday"), ("WeekType", some "all"), ("Time", some "10:00"),
          ("Course", some "Mathematics 101"), ("Room", some "R1"), ("Type", some "Lecture")],
         [("Day", some "Monday"), ("WeekType", some "all"), ("Time", some "12:00"),
          ("Course", some "Physics"), ("Room", some "R2"), ("Type", some "Lab")]]) :=
  exception_filter_semantics _ _ _ _ _ _ (by decide) (by decide) (by decide)

end UniSchedule
